import Mathlib

/-!
Shallow embedding of the concurrent exchange-rate aggregator of
`src/main.py` (class `ExchangeRateHistory`), together with proofs of the
specification's claims about it.

Conventions of the embedding:
* Calendar dates are Python `date.toordinal()` values (`Nat`, ordinal 1 is
  0001-01-01 of the proleptic Gregorian calendar); `date.today()` becomes an
  explicit `today : Nat` parameter.  The conversion `ord2ymd` and the
  `strftime('%d.%m.%Y')` formatting are translated from CPython's
  `datetime` implementation, which `src/main.py` calls.
* The remote HTTP service consumed by `get_exchange_rate` is a parameter
  `remote : Request → HttpOutcome`; outcomes cover the transport error
  (`aiohttp.ClientConnectorError`), the non-success status raised by
  `raise_for_status=True` (`aiohttp.ClientResponseError`), and a parsed
  JSON body.
* JSON bodies are modelled structurally; a field whose access can raise
  `KeyError` in Python is an `Option`.
* Python functions that catch an exception, `print`, and fall off the end
  return `none`; printed messages are tracked where a claim needs them.
* `asyncio.gather` is modelled operationally: a completion schedule
  `σ : List Nat` says in which order the per-date tasks finish; `gather`
  returns its positional result list only once every task has completed.
-/

namespace PyEduWebHT05

/-- Rates are pass-through decimal values from the remote source
(`saleRateNB` / `purchaseRateNB`); no arithmetic is performed on them. -/
abbrev Rate := Rat

/-- A `DailyRecord` as built by `__format_exchange_result`: the Python value
is the single-key dict `{date_string: {currency: {"sale": s, "purchase": p}}}`;
we model it as the date key together with the (insertion-ordered) currency
entries of the inner dict. -/
abbrev DailyRecord := String × List (String × Rate × Rate)

/-! ### Calendar arithmetic (CPython `datetime._ord2ymd` and `strftime`) -/

/-- CPython's `_DAYS_IN_MONTH` (index 0 is an unused sentinel; CPython uses
`-1` there, never read for months `1..12`). -/
def DAYS_IN_MONTH : List Nat := [0, 31, 28, 31, 30, 31, 30, 31, 31, 30, 31, 30, 31]

/-- CPython's `_DAYS_BEFORE_MONTH` (index 0 is an unused sentinel). -/
def DAYS_BEFORE_MONTH : List Nat :=
  [0, 0, 31, 59, 90, 120, 151, 181, 212, 243, 273, 304, 334]

/-- CPython's `datetime._ord2ymd`: proleptic-Gregorian ordinal to
`(year, month, day)`.  Translated clause by clause; `divmod` by the
constants 146097 (days per 400 years), 36524 (per 100 years), 1461
(per 4 years) and 365. -/
def ord2ymd (nn : Nat) : Nat × Nat × Nat :=
  let n0 := nn - 1
  let n400 := n0 / 146097
  let r400 := n0 % 146097
  let n100 := r400 / 36524
  let r100 := r400 % 36524
  let n4 := r100 / 1461
  let r4 := r100 % 1461
  let n1 := r4 / 365
  let n := r4 % 365
  let year := n400 * 400 + 1 + n100 * 100 + n4 * 4 + n1
  if n1 = 4 ∨ n100 = 4 then
    (year - 1, 12, 31)
  else
    let leap : Bool := n1 == 3 && (n4 != 24 || n100 == 3)
    let month := (n + 50) >>> 5
    let preceding := DAYS_BEFORE_MONTH.getD month 0 + (if 2 < month ∧ leap then 1 else 0)
    if n < preceding then
      let month1 := month - 1
      let preceding1 :=
        preceding - (DAYS_IN_MONTH.getD month1 0 + (if month1 = 2 ∧ leap then 1 else 0))
      (year, month1, n - preceding1 + 1)
    else
      (year, month, n - preceding + 1)

/-- Two-digit zero padding, as `strftime`'s `%d` and `%m` produce. -/
def pad2 (n : Nat) : String :=
  if n < 10 then "0" ++ toString n else toString n

/-- Python `date.strftime('%d.%m.%Y')` (the class constant `DATE_FORMAT`) applied
to the date with the given proleptic-Gregorian ordinal. -/
def formatDate (ord : Nat) : String :=
  let ymd := ord2ymd ord
  pad2 ymd.2.2 ++ "." ++ pad2 ymd.2.1 ++ "." ++ toString ymd.1

/-! ### The `ExchangeRateHistory` class -/

/-- Class constant `EXCHANGE_HISTORY_DEPTH = 10`. -/
def EXCHANGE_HISTORY_DEPTH : Nat := 10

/-- Class constant `DEFAULT_CURRENCIES = ["USD", "EUR"]`. -/
def DEFAULT_CURRENCIES : List String := ["USD", "EUR"]

/-- The per-instance state set by `ExchangeRateHistory.__init__`. -/
structure ExchangeRateHistory where
  currencies : List String
  history_days_count : Int
  base_url : String

/-- Constructor `ExchangeRateHistory.__init__`: stores the requested day count, the
default currency filter and the fixed base URL. -/
def ExchangeRateHistory.init (days_count : Int) : ExchangeRateHistory :=
  { currencies := DEFAULT_CURRENCIES
    history_days_count := days_count
    base_url := "http://api.privatbank.ua" }

/-- Method `__check_history_depth`: `0 < days_count <= EXCHANGE_HISTORY_DEPTH`
(the Python method returns `True` or, after printing the depth message,
`None`; the caller only tests truthiness, so a `Bool` is faithful). -/
def check_history_depth (days_count : Int) : Bool :=
  0 < days_count && days_count ≤ (EXCHANGE_HISTORY_DEPTH : Int)

/-- The message printed by `__check_history_depth` on a depth violation. -/
def depthMessage : String :=
  "You can get exchange history only within last 10 days."

/-- The ordinals enumerated by `__dates_range`:
`for d in range(days_count, 0, -1): yield date.today() - timedelta(days=d)`,
i.e. `today - days_count, …, today - 1` (oldest first).  For
`days_count ≤ 0` Python's `range` is empty, matching `Int.toNat`. -/
def dateOrds (today : Nat) (days_count : Int) : List Nat :=
  (List.range days_count.toNat).map (fun i => today - (days_count.toNat - i))

/-- Generator `__dates_range`: the generator yields each ordinal formatted with
`strftime(DATE_FORMAT)`. -/
def dates_range (today : Nat) (days_count : Int) : List String :=
  (dateOrds today days_count).map formatDate

/-! ### Remote responses and `__format_exchange_result` -/

/-- One element of the response's `exchangeRate` list.  Each field access
in `__format_exchange_result` can raise `KeyError`, so every field is
optional. -/
structure EntryJson where
  currency : Option String
  saleRateNB : Option Rate
  purchaseRateNB : Option Rate

/-- The parsed JSON body of a successful response: top-level `date` and
`exchangeRate` keys, each possibly missing. -/
structure ExchangeJson where
  date : Option String
  exchangeRate : Option (List EntryJson)

/-- The fused `filter`/dict-comprehension of `__format_exchange_result`:
walk the `exchangeRate` list; for each entry read `entry["currency"]`
(a missing key raises `KeyError` even for entries the filter discards,
because the lazy `filter` evaluates its predicate on every entry the
comprehension consumes); keep entries whose currency is in the filter and
read their `saleRateNB` / `purchaseRateNB`.  Any `KeyError` makes the whole
method print and return `None`, hence `none` here. -/
def buildRates (currencies : List String) : List EntryJson → Option (List (String × Rate × Rate))
  | [] => some []
  | e :: es =>
    match e.currency with
    | none => none
    | some c =>
      if c ∈ currencies then
        match e.saleRateNB, e.purchaseRateNB with
        | some s, some p => (buildRates currencies es).map (fun l => (c, s, p) :: l)
        | _, _ => none
      else
        buildRates currencies es

/-- Method `__format_exchange_result`: reads `full_result["exchangeRate"]`, then
`full_result["date"]`, then builds the filtered rates dict; returns the
single-key record, or `None` on any `KeyError`.  The inner Python dict is
keyed by currency code; we keep the entries in consumption order (a
duplicate code would overwrite in Python without changing the key set). -/
def format_exchange_result (currencies : List String) (full_result : ExchangeJson) :
    Option DailyRecord :=
  match full_result.exchangeRate with
  | none => none
  | some er =>
    match full_result.date with
    | none => none
    | some d =>
      match buildRates currencies er with
      | none => none
      | some rates => some (d, rates)

/-! ### `get_exchange_rate` and the HTTP boundary -/

/-- The HTTP request issued by one `session.get` call. -/
structure Request where
  base_url : String
  path : String
  params : List (String × String)

/-- What the transport can do for one request: fail to connect
(`aiohttp.ClientConnectorError`), respond with a non-success status that
`raise_for_status=True` turns into `aiohttp.ClientResponseError`, or
deliver a parsed JSON body. -/
inductive HttpOutcome where
  | connError (msg : String)
  | respError (url : String)
  | ok (body : ExchangeJson)

/-- The request built by `get_exchange_rate` for one date string:
`session.get("/p24api/exchange_rates", params={"date": from_date})` against
the session's `base_url`. -/
def mkRequest (from_date : String) : Request :=
  { base_url := "http://api.privatbank.ua"
    path := "/p24api/exchange_rates"
    params := [("date", from_date)] }

/-- Coroutine `get_exchange_rate`: issue the request; on a parsed body, format it;
both `aiohttp` exception classes are caught, printed and swallowed, so the
coroutine returns `None` for them (and also when formatting hits a
`KeyError`). -/
def get_exchange_rate (remote : Request → HttpOutcome) (currencies : List String)
    (from_date : String) : Option DailyRecord :=
  match remote (mkRequest from_date) with
  | .connError _ => none
  | .respError _ => none
  | .ok body => format_exchange_result currencies body

/-! ### `asyncio.gather` and `get_exchange_history` -/

/-- One slot per launched task: `none` while the task is still pending,
`some r` once it completed with result `r`. -/
abbrev GatherState := List (Option (Option DailyRecord))

/-- The event loop completes task `i`: its slot receives the task's
result (the outcome of `get_exchange_rate` for the `i`-th date). -/
def stepComplete (outcomes : List (Option DailyRecord)) (s : GatherState) (i : Nat) :
    GatherState :=
  s.set i (some (outcomes.getD i none))

/-- Run the completion schedule `σ` from the all-pending state. -/
def runSchedule (outcomes : List (Option DailyRecord)) (σ : List Nat) : GatherState :=
  σ.foldl (stepComplete outcomes) (List.replicate outcomes.length none)

/-- Model of `asyncio.gather(*tasks)`: returns the results positionally, in the
order the awaitables were passed, but only after every task completed
(`some results`); while any task is still pending the gather has not
returned (`none`).  A task whose result is `none` (a failed date) completes
like any other — there is no cancellation. -/
def gather (outcomes : List (Option DailyRecord)) (σ : List Nat) :
    Option (List (Option DailyRecord)) :=
  let final := runSchedule outcomes σ
  if final.all Option.isSome then some (final.map (fun x => x.getD none)) else none

/-- Observable behaviour of one `get_exchange_history()` call: the returned
value (`none` for Python's implicit `None` on a depth violation, or the
gathered list), what was printed, and the remote requests issued. -/
structure HistoryRun where
  result : Option (List (Option DailyRecord))
  printed : List String
  requests : List Request

/-- Coroutine `get_exchange_history`: check the depth; on success build one
`get_exchange_rate` coroutine per generated date (in generator order) and
`await asyncio.gather(*responses)`; on violation the method prints the
depth message and returns `None` without touching the generator or the
network. -/
def get_exchange_history (remote : Request → HttpOutcome) (currencies : List String)
    (today : Nat) (days_count : Int) (σ : List Nat) : HistoryRun :=
  if check_history_depth days_count then
    let dates := dates_range today days_count
    { result := gather (dates.map (get_exchange_rate remote currencies)) σ
      printed := []
      requests := dates.map mkRequest }
  else
    { result := none
      printed := [depthMessage]
      requests := [] }

/-- Scheduling events of one aggregate call, for the concurrency claims:
`launch i` = coroutine `i` is handed to the event loop by `gather`,
`complete i` = task `i` finishes, `ret` = `gather` returns. -/
inductive Event where
  | launch (i : Nat)
  | complete (i : Nat)
  | ret
deriving DecidableEq

/-- The event trace of `get_exchange_history` under completion schedule
`σ`: `asyncio.gather` wraps and schedules every coroutine before awaiting,
so all `launch` events precede the completions, and it returns only after
the schedule has run. -/
def historyTrace (days_count : Int) (σ : List Nat) : List Event :=
  if check_history_depth days_count then
    (List.range days_count.toNat).map Event.launch ++ σ.map Event.complete ++ [Event.ret]
  else []

/-! ### Helper lemmas about the `gather` model -/

theorem length_foldl_stepComplete (outcomes : List (Option DailyRecord)) :
    ∀ (σ : List Nat) (s : GatherState),
      (σ.foldl (stepComplete outcomes) s).length = s.length := by
  intro σ
  induction σ with
  | nil => intro s; rfl
  | cons j σ' ih =>
    intro s
    simp only [List.foldl_cons]
    rw [ih]
    simp [stepComplete]

theorem getD_foldl_stepComplete (outcomes : List (Option DailyRecord)) :
    ∀ (σ : List Nat) (s : GatherState) (i : Nat), i < s.length →
      (σ.foldl (stepComplete outcomes) s).getD i none =
        if i ∈ σ then some (outcomes.getD i none) else s.getD i none := by
  intro σ
  induction σ with
  | nil => intro s i _; simp
  | cons j σ' ih =>
    intro s i hi
    simp only [List.foldl_cons]
    rw [ih (stepComplete outcomes s j) i (by simp [stepComplete, hi])]
    by_cases hmem : i ∈ σ'
    · simp [hmem]
    · by_cases hij : i = j
      · subst hij
        simp only [hmem, if_false, List.mem_cons, true_or, if_true, stepComplete]
        rw [List.getD_eq_getElem _ _ (by simpa using hi)]
        simp [List.getElem_set, hi]
      · simp only [hmem, if_false, List.mem_cons, stepComplete]
        rw [if_neg (by tauto)]
        rw [List.getD_eq_getElem _ _ (by simpa using hi),
          List.getD_eq_getElem _ _ hi]
        rw [List.getElem_set]
        rw [if_neg (by omega)]

theorem length_runSchedule (outcomes : List (Option DailyRecord)) (σ : List Nat) :
    (runSchedule outcomes σ).length = outcomes.length := by
  unfold runSchedule
  rw [length_foldl_stepComplete]
  simp

theorem runSchedule_complete (outcomes : List (Option DailyRecord)) (σ : List Nat)
    (hsub : ∀ i, i < outcomes.length → i ∈ σ) :
    runSchedule outcomes σ = outcomes.map some := by
  apply List.ext_getElem
  · rw [length_runSchedule]; simp
  · intro i h1 h2
    have hi : i < outcomes.length := by simpa using h2
    rw [← List.getD_eq_getElem (runSchedule outcomes σ) none h1]
    unfold runSchedule
    rw [getD_foldl_stepComplete outcomes σ _ i (by simpa using hi)]
    rw [if_pos (hsub i hi)]
    rw [List.getD_eq_getElem _ _ hi]
    simp

theorem gather_complete (outcomes : List (Option DailyRecord)) (σ : List Nat)
    (hsub : ∀ i, i < outcomes.length → i ∈ σ) :
    gather outcomes σ = some outcomes := by
  unfold gather
  rw [runSchedule_complete outcomes σ hsub]
  rw [if_pos (by simp)]
  rw [List.map_map]
  simp [Function.comp_def]

theorem gather_isSome_iff (outcomes : List (Option DailyRecord)) (σ : List Nat) :
    (gather outcomes σ).isSome = true ↔ ∀ i, i < outcomes.length → i ∈ σ := by
  constructor
  · intro h i hi
    by_contra hmem
    unfold gather at h
    by_cases hall : (runSchedule outcomes σ).all Option.isSome
    · have hlen : i < (runSchedule outcomes σ).length := by
        rw [length_runSchedule]; exact hi
      have hslot : (runSchedule outcomes σ).getD i none = none := by
        unfold runSchedule
        rw [getD_foldl_stepComplete outcomes σ _ i (by simpa using hi)]
        rw [if_neg hmem]
        simp
      have := List.all_eq_true.mp hall _ (List.getElem_mem hlen)
      rw [← List.getD_eq_getElem _ none hlen] at this
      rw [hslot] at this
      simp at this
    · rw [if_neg hall] at h
      simp at h
  · intro h
    rw [gather_complete outcomes σ h]
    rfl

theorem gather_eq_some (outcomes : List (Option DailyRecord)) (σ : List Nat)
    (l : List (Option DailyRecord)) (h : gather outcomes σ = some l) :
    l = outcomes := by
  have hsub : ∀ i, i < outcomes.length → i ∈ σ := by
    rw [← gather_isSome_iff outcomes σ]
    rw [h]
    rfl
  rw [gather_complete outcomes σ hsub] at h
  exact (Option.some_inj.mp h).symm

theorem perm_range_sub {σ : List Nat} {n : Nat} (hσ : σ.Perm (List.range n)) :
    ∀ i, i < n → i ∈ σ := by
  intro i hi
  rw [hσ.mem_iff]
  simpa using hi

/-! ### Helper lemmas about the date range -/

theorem dateOrds_eq (today : Nat) (days_count : Int) (h : days_count.toNat ≤ today) :
    dateOrds today days_count =
      (List.range days_count.toNat).map (fun i => today - days_count.toNat + i) := by
  unfold dateOrds
  apply List.map_congr_left
  intro i hi
  have hi' : i < days_count.toNat := by simpa using hi
  omega

/-- C4:  For every `days_count` in `[1,10]` (and any real `today`, whose
ordinal exceeds 10), `__dates_range` yields exactly `days_count` dates —
each the `dd.mm.yyyy` formatting of an underlying ordinal — whose ordinals
are strictly increasing (hence the dates are distinct), all strictly before
`today`, oldest first: they are exactly the `days_count` days immediately
preceding the current date, `today - days_count, …, today - 1`. -/
theorem dates_range_chronological (today : Nat) (days_count : Int)
    (h1 : 1 ≤ days_count) (h2 : days_count ≤ 10) (h3 : 10 < today) :
    (dates_range today days_count).length = days_count.toNat ∧
    dates_range today days_count = (dateOrds today days_count).map formatDate ∧
    (dateOrds today days_count).Pairwise (· < ·) ∧
    (∀ o ∈ dateOrds today days_count, o < today) ∧
    (dateOrds today days_count).Nodup ∧
    dateOrds today days_count =
      (List.range days_count.toNat).map (fun i => today - days_count.toNat + i) := by
  have hle : days_count.toNat ≤ today := by omega
  have heq := dateOrds_eq today days_count hle
  have hpair : (dateOrds today days_count).Pairwise (· < ·) := by
    rw [heq]
    exact (List.pairwise_lt_range _).map _ (fun a b hab => by omega)
  refine ⟨?_, rfl, hpair, ?_, hpair.nodup, heq⟩
  · simp [dates_range, dateOrds]
  · intro o ho
    rw [heq] at ho
    obtain ⟨i, hi, rfl⟩ := List.mem_map.mp ho
    have : i < days_count.toNat := List.mem_range.mp hi
    omega

/-- Witness for C4 at `today = 739000` (24.04.2024), `days_count = 3`. -/
theorem dates_range_chronological_witness :
    (dates_range 739000 3).length = (3 : Int).toNat ∧
    dates_range 739000 3 = (dateOrds 739000 3).map formatDate ∧
    (dateOrds 739000 3).Pairwise (· < ·) ∧
    (∀ o ∈ dateOrds 739000 3, o < 739000) ∧
    (dateOrds 739000 3).Nodup ∧
    dateOrds 739000 3 =
      (List.range (3 : Int).toNat).map (fun i => 739000 - (3 : Int).toNat + i) :=
  dates_range_chronological 739000 3 (by decide) (by decide) (by decide)

theorem check_history_depth_valid {days_count : Int} (h1 : 1 ≤ days_count)
    (h2 : days_count ≤ 10) : check_history_depth days_count = true := by
  simp only [check_history_depth, EXCHANGE_HISTORY_DEPTH, Bool.and_eq_true, decide_eq_true_eq]
  omega

theorem history_result_eq (remote : Request → HttpOutcome)
    (currencies : List String) (today : Nat) (days_count : Int) (σ : List Nat)
    (h1 : 1 ≤ days_count) (h2 : days_count ≤ 10)
    (hσ : σ.Perm (List.range days_count.toNat)) :
    (get_exchange_history remote currencies today days_count σ).result =
      some ((dates_range today days_count).map (get_exchange_rate remote currencies)) := by
  unfold get_exchange_history
  rw [if_pos (check_history_depth_valid h1 h2)]
  apply gather_complete
  intro i hi
  apply perm_range_sub hσ
  simpa [dates_range, dateOrds] using hi

/-- C1:  For every valid `days_count` in `[1,10]` and every assignment of
per-date outcomes (any `remote`), under every completion order `σ` of the
concurrent per-date tasks, `get_exchange_history` returns the per-date
results positionally: element `i` is the outcome of `get_exchange_rate` on
the `i`-th generated date (oldest first), independent of `σ`. -/
theorem history_preserves_chronology (remote : Request → HttpOutcome)
    (currencies : List String) (today : Nat) (days_count : Int) (σ : List Nat)
    (h1 : 1 ≤ days_count) (h2 : days_count ≤ 10)
    (hσ : σ.Perm (List.range days_count.toNat)) :
    (get_exchange_history remote currencies today days_count σ).result =
      some ((dates_range today days_count).map (get_exchange_rate remote currencies)) :=
  history_result_eq remote currencies today days_count σ h1 h2 hσ

/-- Witness for C1: two dates, completion order reversed (`σ = [1, 0]`,
day 2's task finishes first), remote failing on everything. -/
theorem history_preserves_chronology_witness :
    (get_exchange_history (fun _ => HttpOutcome.connError "unreachable")
        DEFAULT_CURRENCIES 739000 2 [1, 0]).result =
      some ((dates_range 739000 2).map
        (get_exchange_rate (fun _ => HttpOutcome.connError "unreachable")
          DEFAULT_CURRENCIES)) :=
  history_preserves_chronology _ _ 739000 2 [1, 0] (by decide) (by decide) (by decide)

theorem length_dates_range (today : Nat) (days_count : Int) :
    (dates_range today days_count).length = days_count.toNat := by
  simp [dates_range, dateOrds]

/-- C8:  For every valid `days_count`: in the event trace, every
`launch` (coroutine handed to the loop by `gather`) precedes every
`complete`, so all calls are issued before any is awaited; the aggregate
result is available exactly when *every* per-date task has completed (the
`gather` is an all-complete barrier, returning under any completion
schedule that covers all tasks — failures included, so there is no early
cancellation on the first failure); and the returned list always joins the
full set of per-date outcomes. -/
theorem history_fanout_barrier (remote : Request → HttpOutcome)
    (currencies : List String) (today : Nat) (days_count : Int) (σ : List Nat)
    (h1 : 1 ≤ days_count) (h2 : days_count ≤ 10) :
    (∀ p q i j,
        (historyTrace days_count σ).getD p Event.ret = Event.launch i →
        (historyTrace days_count σ).getD q Event.ret = Event.complete j →
        p < q) ∧
    ((get_exchange_history remote currencies today days_count σ).result.isSome = true ↔
      ∀ i, i < days_count.toNat → i ∈ σ) ∧
    (∀ l, (get_exchange_history remote currencies today days_count σ).result = some l →
      l = (dates_range today days_count).map (get_exchange_rate remote currencies)) := by
  have hchk := check_history_depth_valid h1 h2
  have htr : historyTrace days_count σ =
      (List.range days_count.toNat).map Event.launch ++
        (σ.map Event.complete ++ [Event.ret]) := by
    rw [historyTrace, if_pos hchk, List.append_assoc]
  have hres : (get_exchange_history remote currencies today days_count σ).result =
      gather ((dates_range today days_count).map (get_exchange_rate remote currencies)) σ := by
    rw [get_exchange_history, if_pos hchk]
  refine ⟨?_, ?_, ?_⟩
  · intro p q i j hp hq
    rw [htr] at hp hq
    set L := (List.range days_count.toNat).map Event.launch with hL
    set B := σ.map Event.complete ++ [Event.ret] with hB
    have hLlen : L.length = days_count.toNat := by simp [hL]
    have hp' : p < L.length := by
      by_contra hge
      rw [List.getD_append_right _ _ _ _ (by omega)] at hp
      have hBmem : ∀ e ∈ B, e = Event.ret ∨ ∃ k, e = Event.complete k := by
        intro e he
        rw [hB] at he
        rcases List.mem_append.mp he with hc | hr
        · obtain ⟨k, _, hk⟩ := List.mem_map.mp hc
          exact Or.inr ⟨k, hk.symm⟩
        · exact Or.inl (by simpa using hr)
      by_cases hb : p - L.length < B.length
      · have hget : B.getD (p - L.length) Event.ret = B.get ⟨p - L.length, hb⟩ := by
          rw [List.getD_eq_getElem _ _ hb]
          rfl
        rw [hget] at hp
        rcases hBmem _ (List.get_mem B _ hb) with hr | ⟨k, hk⟩
        · rw [hp] at hr
          exact Event.noConfusion hr
        · rw [hp] at hk
          exact Event.noConfusion hk
      · rw [List.getD_eq_default _ _ (by omega)] at hp
        exact Event.noConfusion hp
    have hq' : L.length ≤ q := by
      by_contra hlt
      push_neg at hlt
      rw [List.getD_append _ _ _ _ hlt] at hq
      rw [List.getD_eq_getElem _ _ hlt] at hq
      have hlq : L[q] = Event.launch q := by
        simp [hL]
      rw [hlq] at hq
      exact Event.noConfusion hq
    omega
  · rw [hres, gather_isSome_iff, List.length_map, length_dates_range]
  · intro l hl
    rw [hres] at hl
    exact gather_eq_some _ _ _ hl

/-- Witness for C8 at `days_count = 1`, `σ = [0]`. -/
theorem history_fanout_barrier_witness :
    (∀ p q i j,
        (historyTrace 1 [0]).getD p Event.ret = Event.launch i →
        (historyTrace 1 [0]).getD q Event.ret = Event.complete j →
        p < q) ∧
    ((get_exchange_history (fun _ => HttpOutcome.connError "down")
        DEFAULT_CURRENCIES 739000 1 [0]).result.isSome = true ↔
      ∀ i, i < (1 : Int).toNat → i ∈ [0]) ∧
    (∀ l, (get_exchange_history (fun _ => HttpOutcome.connError "down")
        DEFAULT_CURRENCIES 739000 1 [0]).result = some l →
      l = (dates_range 739000 1).map
        (get_exchange_rate (fun _ => HttpOutcome.connError "down") DEFAULT_CURRENCIES)) :=
  history_fanout_barrier _ _ 739000 1 [0] (by decide) (by decide)

/-- C10:  For every valid `days_count` and complete completion schedule,
`get_exchange_history` returns a list of exactly `days_count.toNat`
elements whose `i`-th element is the outcome of the call for the `i`-th
generated date — `some` of a single-key record, or the `None` placeholder
of a failed date, sitting at its chronological position rather than being
omitted. -/
theorem history_positional_placeholders (remote : Request → HttpOutcome)
    (currencies : List String) (today : Nat) (days_count : Int) (σ : List Nat)
    (h1 : 1 ≤ days_count) (h2 : days_count ≤ 10)
    (hσ : σ.Perm (List.range days_count.toNat)) :
    ∃ l, (get_exchange_history remote currencies today days_count σ).result = some l ∧
      l.length = days_count.toNat ∧
      ∀ i, i < days_count.toNat →
        l.getD i none =
          get_exchange_rate remote currencies ((dates_range today days_count).getD i "") := by
  refine ⟨_, history_result_eq remote currencies today days_count σ h1 h2 hσ, ?_, ?_⟩
  · rw [List.length_map, length_dates_range]
  · intro i hi
    have hid : i < (dates_range today days_count).length := by
      rw [length_dates_range]; exact hi
    rw [List.getD_eq_getElem _ _ (by simpa using hid), List.getD_eq_getElem _ _ hid]
    simp

/-- Witness for C10 at `days_count = 2`, `σ = [1, 0]`. -/
theorem history_positional_placeholders_witness :
    ∃ l, (get_exchange_history (fun _ => HttpOutcome.connError "down")
        DEFAULT_CURRENCIES 739000 2 [1, 0]).result = some l ∧
      l.length = (2 : Int).toNat ∧
      ∀ i, i < (2 : Int).toNat →
        l.getD i none =
          get_exchange_rate (fun _ => HttpOutcome.connError "down") DEFAULT_CURRENCIES
            ((dates_range 739000 2).getD i "") :=
  history_positional_placeholders _ _ 739000 2 [1, 0] (by decide) (by decide) (by decide)

/-- C2:  For every valid `days_count`, whatever mixture of per-date
successes and failures the remote produces: the batch is not aborted (a
list is returned), the `DailyRecord`s present in it are exactly the
successful ones in chronological order (`filterMap id` recovers precisely
the successes, date by date, in generator order), and the presence of any
failed date is signalled by a `none` entry — a partial outcome is
distinguishable from a complete one. -/
theorem history_partial_success (remote : Request → HttpOutcome)
    (currencies : List String) (today : Nat) (days_count : Int) (σ : List Nat)
    (h1 : 1 ≤ days_count) (h2 : days_count ≤ 10)
    (hσ : σ.Perm (List.range days_count.toNat)) :
    ∃ l, (get_exchange_history remote currencies today days_count σ).result = some l ∧
      l.filterMap id =
        (dates_range today days_count).filterMap (get_exchange_rate remote currencies) ∧
      (∀ rec, some rec ∈ l →
        ∃ d ∈ dates_range today days_count,
          get_exchange_rate remote currencies d = some rec) ∧
      ((∃ d ∈ dates_range today days_count,
          get_exchange_rate remote currencies d = none) → none ∈ l) := by
  refine ⟨_, history_result_eq remote currencies today days_count σ h1 h2 hσ, ?_, ?_, ?_⟩
  · rw [List.filterMap_map]
    rfl
  · intro rec hrec
    obtain ⟨d, hd, hfd⟩ := List.mem_map.mp hrec
    exact ⟨d, hd, hfd⟩
  · rintro ⟨d, hd, hfd⟩
    exact List.mem_map.mpr ⟨d, hd, hfd⟩

/-- Witness for C2 at `days_count = 2`, every call failing. -/
theorem history_partial_success_witness :
    ∃ l, (get_exchange_history (fun _ => HttpOutcome.connError "down")
        DEFAULT_CURRENCIES 739000 2 [0, 1]).result = some l ∧
      l.filterMap id =
        (dates_range 739000 2).filterMap
          (get_exchange_rate (fun _ => HttpOutcome.connError "down") DEFAULT_CURRENCIES) ∧
      (∀ rec, some rec ∈ l →
        ∃ d ∈ dates_range 739000 2,
          get_exchange_rate (fun _ => HttpOutcome.connError "down")
            DEFAULT_CURRENCIES d = some rec) ∧
      ((∃ d ∈ dates_range 739000 2,
          get_exchange_rate (fun _ => HttpOutcome.connError "down")
            DEFAULT_CURRENCIES d = none) → none ∈ l) :=
  history_partial_success _ _ 739000 2 [0, 1] (by decide) (by decide) (by decide)

/-- C7:  For every valid `days_count`, if every per-date call fails, the
aggregate is `some` of a list of `days_count` `None` placeholders: it is
not the `none` a rejected request yields, and it differs from every
complete result (a list all of whose entries are present records, however
empty their rate maps may be) — the all-failed outcome is distinguishable
from both. -/
theorem history_empty_outcome (remote : Request → HttpOutcome)
    (currencies : List String) (today : Nat) (days_count : Int) (σ : List Nat)
    (h1 : 1 ≤ days_count) (h2 : days_count ≤ 10)
    (hσ : σ.Perm (List.range days_count.toNat))
    (hfail : ∀ d ∈ dates_range today days_count,
      get_exchange_rate remote currencies d = none) :
    (get_exchange_history remote currencies today days_count σ).result =
      some (List.replicate days_count.toNat none) ∧
    (get_exchange_history remote currencies today days_count σ).result ≠ none ∧
    (∀ l, (∀ x ∈ l, x.isSome = true) →
      (get_exchange_history remote currencies today days_count σ).result ≠ some l) := by
  have hmap : (dates_range today days_count).map (get_exchange_rate remote currencies) =
      List.replicate days_count.toNat none := by
    rw [List.eq_replicate_iff]
    refine ⟨by rw [List.length_map, length_dates_range], ?_⟩
    intro b hb
    obtain ⟨d, hd, hfd⟩ := List.mem_map.mp hb
    rw [← hfd]
    exact hfail d hd
  have hres := history_result_eq remote currencies today days_count σ h1 h2 hσ
  rw [hmap] at hres
  refine ⟨hres, by rw [hres]; simp, ?_⟩
  intro l hall heq
  rw [hres] at heq
  have hl : List.replicate days_count.toNat none = l := Option.some_inj.mp heq
  have hnone : (none : Option DailyRecord) ∈ l := by
    rw [← hl]
    exact List.mem_replicate.mpr ⟨by omega, rfl⟩
  have := hall none hnone
  simp at this

/-- Witness for C7 at `days_count = 1`, the only call failing. -/
theorem history_empty_outcome_witness :
    (get_exchange_history (fun _ => HttpOutcome.connError "down")
        DEFAULT_CURRENCIES 739000 1 [0]).result =
      some (List.replicate (1 : Int).toNat none) ∧
    (get_exchange_history (fun _ => HttpOutcome.connError "down")
        DEFAULT_CURRENCIES 739000 1 [0]).result ≠ none ∧
    (∀ l, (∀ x ∈ l, x.isSome = true) →
      (get_exchange_history (fun _ => HttpOutcome.connError "down")
          DEFAULT_CURRENCIES 739000 1 [0]).result ≠ some l) :=
  history_empty_outcome _ _ 739000 1 [0] (by decide) (by decide) (by decide)
    (fun _ _ => rfl)

/-- C3:  For every `days_count ≤ 0` or `> 10`, whatever the remote and
schedule: no request is issued, the printed output is exactly the depth
message, the call returns `None` (the depth rejection), and the whole
observable run does not depend on `today` — the date generator is never
consumed. -/
theorem depth_violation_rejection (remote : Request → HttpOutcome)
    (currencies : List String) (today today' : Nat) (days_count : Int) (σ : List Nat)
    (h : days_count ≤ 0 ∨ 10 < days_count) :
    (get_exchange_history remote currencies today days_count σ).requests = [] ∧
    (get_exchange_history remote currencies today days_count σ).result = none ∧
    (get_exchange_history remote currencies today days_count σ).printed = [depthMessage] ∧
    get_exchange_history remote currencies today days_count σ =
      get_exchange_history remote currencies today' days_count σ := by
  have hchk : check_history_depth days_count = false := by
    simp only [check_history_depth, EXCHANGE_HISTORY_DEPTH, Bool.and_eq_false_iff,
      decide_eq_false_iff_not, not_lt, not_le]
    omega
  refine ⟨?_, ?_, ?_, ?_⟩ <;> simp [get_exchange_history, hchk]

/-- Witness for C3 at `days_count = 11`. -/
theorem depth_violation_rejection_witness :
    (get_exchange_history (fun _ => HttpOutcome.connError "down")
        DEFAULT_CURRENCIES 739000 11 []).requests = [] ∧
    (get_exchange_history (fun _ => HttpOutcome.connError "down")
        DEFAULT_CURRENCIES 739000 11 []).result = none ∧
    (get_exchange_history (fun _ => HttpOutcome.connError "down")
        DEFAULT_CURRENCIES 739000 11 []).printed = [depthMessage] ∧
    get_exchange_history (fun _ => HttpOutcome.connError "down")
        DEFAULT_CURRENCIES 739000 11 [] =
      get_exchange_history (fun _ => HttpOutcome.connError "down")
        DEFAULT_CURRENCIES 5 11 [] :=
  depth_violation_rejection _ _ 739000 5 11 [] (Or.inr (by decide))

/-! ### Malformed responses (`KeyError` conditions) -/

/-- An `exchangeRate` entry whose processing raises `KeyError`: its
`currency` key is missing (read for every consumed entry by the filter
predicate), or it passes the filter and one of its rate keys is missing. -/
def malformedEntry (currencies : List String) (e : EntryJson) : Prop :=
  e.currency = none ∨
    ∃ c, e.currency = some c ∧ c ∈ currencies ∧
      (e.saleRateNB = none ∨ e.purchaseRateNB = none)

/-- A body on which `__format_exchange_result` raises (and catches)
`KeyError`: missing `exchangeRate`, missing `date`, or a malformed
entry. -/
def malformedBody (currencies : List String) (body : ExchangeJson) : Prop :=
  body.exchangeRate = none ∨ body.date = none ∨
    ∃ e ∈ body.exchangeRate.getD [], malformedEntry currencies e

theorem buildRates_eq_none_of_malformed (currencies : List String) :
    ∀ (es : List EntryJson) (e : EntryJson), e ∈ es → malformedEntry currencies e →
      buildRates currencies es = none := by
  intro es
  induction es with
  | nil => intro e he _; cases he
  | cons a as ih =>
    intro e he hme
    rcases List.mem_cons.mp he with rfl | hmem
    · rcases hme with hc | ⟨c, hc, hin, hrate⟩
      · simp [buildRates, hc]
      · simp only [buildRates, hc]
        rw [if_pos hin]
        rcases hrate with hs | hp
        · rw [hs]
        · rw [hp]
          cases e.saleRateNB <;> rfl
    · have hrec := ih e hmem hme
      cases hac : a.currency with
      | none => simp [buildRates, hac]
      | some c0 =>
        simp only [buildRates, hac]
        by_cases hin : c0 ∈ currencies
        · rw [if_pos hin]
          cases a.saleRateNB <;> cases a.purchaseRateNB <;> simp [hrec]
        · rw [if_neg hin]
          exact hrec

theorem format_eq_none_of_malformed (currencies : List String) (body : ExchangeJson)
    (h : malformedBody currencies body) :
    format_exchange_result currencies body = none := by
  rcases h with her | hd | ⟨e, he, hme⟩
  · simp [format_exchange_result, her]
  · cases her : body.exchangeRate with
    | none => simp [format_exchange_result, her]
    | some er => simp [format_exchange_result, her, hd]
  · cases her : body.exchangeRate with
    | none => simp [format_exchange_result, her]
    | some er =>
      rw [her] at he
      simp only [Option.getD_some] at he
      have := buildRates_eq_none_of_malformed currencies er e he hme
      cases hd : body.date with
      | none => simp [format_exchange_result, her, hd]
      | some d => simp [format_exchange_result, her, hd, this]

/-- C5:  At the `RateClient` boundary each of the three per-date failure
modes — transport failure (`aiohttp.ClientConnectorError`), non-success
status (`aiohttp.ClientResponseError` via `raise_for_status=True`), and
`KeyError` while reshaping the parsed body — is converted into the per-date
outcome `None` of `get_exchange_rate` (a value, not an exception); and the
`gather` join completes over any outcome assignment, so sibling per-date
tasks are never aborted by one date's failure. -/
theorem rate_failures_scoped (remote : Request → HttpOutcome)
    (currencies : List String) (from_date : String) :
    (∀ msg, remote (mkRequest from_date) = HttpOutcome.connError msg →
      get_exchange_rate remote currencies from_date = none) ∧
    (∀ url, remote (mkRequest from_date) = HttpOutcome.respError url →
      get_exchange_rate remote currencies from_date = none) ∧
    (∀ body, remote (mkRequest from_date) = HttpOutcome.ok body →
      malformedBody currencies body →
      get_exchange_rate remote currencies from_date = none) ∧
    (∀ (outcomes : List (Option DailyRecord)) (σ : List Nat),
      σ.Perm (List.range outcomes.length) → (gather outcomes σ).isSome = true) := by
  refine ⟨?_, ?_, ?_, ?_⟩
  · intro msg hmsg
    simp [get_exchange_rate, hmsg]
  · intro url hurl
    simp [get_exchange_rate, hurl]
  · intro body hbody hmal
    simp [get_exchange_rate, hbody, format_eq_none_of_malformed currencies body hmal]
  · intro outcomes σ hσ
    rw [gather_complete outcomes σ (perm_range_sub hσ)]
    rfl

/-- Witness for C5: one concrete date per failure mode, and a two-task
gather where the first task failed. -/
theorem rate_failures_scoped_witness :
    get_exchange_rate (fun _ => HttpOutcome.connError "cannot connect")
      DEFAULT_CURRENCIES "01.01.2024" = none ∧
    get_exchange_rate (fun _ => HttpOutcome.respError "http://api.privatbank.ua/p24api/exchange_rates")
      DEFAULT_CURRENCIES "02.01.2024" = none ∧
    get_exchange_rate (fun _ => HttpOutcome.ok { date := none, exchangeRate := none })
      DEFAULT_CURRENCIES "03.01.2024" = none ∧
    (gather [none, some ("04.01.2024", [])] [1, 0]).isSome = true :=
  ⟨(rate_failures_scoped _ DEFAULT_CURRENCIES "01.01.2024").1 "cannot connect" rfl,
   (rate_failures_scoped _ DEFAULT_CURRENCIES "02.01.2024").2.1 _ rfl,
   (rate_failures_scoped _ DEFAULT_CURRENCIES "03.01.2024").2.2.1 _ rfl (Or.inl rfl),
   (rate_failures_scoped (fun _ => HttpOutcome.connError "")
     DEFAULT_CURRENCIES "").2.2.2 [none, some ("04.01.2024", [])] [1, 0] (by decide)⟩

/-! ### The currency filter -/

theorem buildRates_mem_keys (currencies : List String) :
    ∀ (es : List EntryJson) (l : List (String × Rate × Rate)),
      buildRates currencies es = some l →
      ∀ c, c ∈ l.map Prod.fst ↔
        (c ∈ currencies ∧ ∃ e ∈ es, e.currency = some c) := by
  intro es
  induction es with
  | nil =>
    intro l hl c
    simp only [buildRates, Option.some_inj] at hl
    subst hl
    simp
  | cons a as ih =>
    intro l hl c
    cases hac : a.currency with
    | none => simp [buildRates, hac] at hl
    | some c0 =>
      simp only [buildRates, hac] at hl
      by_cases hin : c0 ∈ currencies
      · rw [if_pos hin] at hl
        cases hs : a.saleRateNB with
        | none =>
          rw [hs] at hl
          cases hp : a.purchaseRateNB <;> rw [hp] at hl <;> simp at hl
        | some s =>
          rw [hs] at hl
          cases hp : a.purchaseRateNB with
          | none =>
            rw [hp] at hl
            simp at hl
          | some p =>
            rw [hp] at hl
            rw [Option.map_eq_some'] at hl
            obtain ⟨l', hl', rfl⟩ := hl
            simp only [List.map_cons, List.mem_cons]
            rw [ih l' hl' c]
            constructor
            · rintro (rfl | ⟨hcon, e, he, hec⟩)
              · exact ⟨hin, a, Or.inl rfl, hac⟩
              · exact ⟨hcon, e, Or.inr he, hec⟩
            · rintro ⟨hcon, e, he, hec⟩
              rcases he with rfl | hmem
              · rw [hac] at hec
                exact Or.inl (Option.some_inj.mp hec).symm
              · exact Or.inr ⟨hcon, e, hmem, hec⟩
      · rw [if_neg hin] at hl
        rw [ih l hl c]
        constructor
        · rintro ⟨hcon, e, he, hec⟩
          exact ⟨hcon, e, List.mem_cons_of_mem a he, hec⟩
        · rintro ⟨hcon, e, he, hec⟩
          rcases List.mem_cons.mp he with rfl | hmem
          · rw [hac] at hec
            have hcc : c0 = c := Option.some_inj.mp hec
            subst hcc
            exact absurd hcon hin
          · exact ⟨hcon, e, hmem, hec⟩

/-- C6:  The currency filter defaults to `["USD", "EUR"]` (set by
`__init__` from `DEFAULT_CURRENCIES`), and every successfully built
`DailyRecord` carries exactly the currencies that are both in the active
filter and present in the response's `exchangeRate` list: a filter member
absent from the response is silently omitted, and a response currency
outside the filter is excluded. -/
theorem record_filters_currencies :
    (∀ days_count, (ExchangeRateHistory.init days_count).currencies = ["USD", "EUR"]) ∧
    DEFAULT_CURRENCIES = ["USD", "EUR"] ∧
    (∀ (currencies : List String) (full_result : ExchangeJson) (rec : DailyRecord),
      format_exchange_result currencies full_result = some rec →
      ∀ c, c ∈ rec.2.map Prod.fst ↔
        (c ∈ currencies ∧ ∃ e ∈ full_result.exchangeRate.getD [], e.currency = some c)) := by
  refine ⟨fun _ => rfl, rfl, ?_⟩
  intro currencies full_result rec h c
  cases her : full_result.exchangeRate with
  | none => simp [format_exchange_result, her] at h
  | some er =>
    cases hd : full_result.date with
    | none => simp [format_exchange_result, her, hd] at h
    | some d =>
      cases hbr : buildRates currencies er with
      | none => simp [format_exchange_result, her, hd, hbr] at h
      | some rates =>
        have hrec : rec = (d, rates) := by
          simp only [format_exchange_result, her, hd, hbr, Option.some_inj] at h
          exact h.symm
        subst hrec
        simp only [her, Option.getD_some]
        exact buildRates_mem_keys currencies er rates hbr c

/-- Sample remote body for the C6 witness: `USD`, `EUR` and `GBP` entries. -/
def sampleBody : ExchangeJson :=
  { date := some "01.01.2024"
    exchangeRate := some
      [ { currency := some "USD", saleRateNB := some 1, purchaseRateNB := some 2 }
      , { currency := some "EUR", saleRateNB := some 3, purchaseRateNB := some 4 }
      , { currency := some "GBP", saleRateNB := some 5, purchaseRateNB := some 6 } ] }

/-- The record the code builds from `sampleBody` under the default filter. -/
def sampleRecord : DailyRecord := ("01.01.2024", [("USD", 1, 2), ("EUR", 3, 4)])

/-- Witness for C6: under the default filter, `USD` is kept and `GBP`
excluded when the response carries `USD`, `EUR`, `GBP`. -/
theorem record_filters_currencies_witness :
    ("USD" ∈ sampleRecord.2.map Prod.fst ↔
      ("USD" ∈ DEFAULT_CURRENCIES ∧
        ∃ e ∈ sampleBody.exchangeRate.getD [], e.currency = some "USD")) ∧
    ("GBP" ∈ sampleRecord.2.map Prod.fst ↔
      ("GBP" ∈ DEFAULT_CURRENCIES ∧
        ∃ e ∈ sampleBody.exchangeRate.getD [], e.currency = some "GBP")) :=
  ⟨record_filters_currencies.2.2 DEFAULT_CURRENCIES sampleBody sampleRecord rfl "USD",
   record_filters_currencies.2.2 DEFAULT_CURRENCIES sampleBody sampleRecord rfl "GBP"⟩

/-! ### The request shape and the merge key (C9) -/

/-- A remote that answers every request with a fixed body whose `date`
field differs from the queried one (the real API echoes the query date;
nothing in the code enforces that). -/
def echoFreeRemote : Request → HttpOutcome := fun _ =>
  HttpOutcome.ok { date := some "02.01.2024", exchangeRate := some [] }

/-- Counterexample to C9 as stated: querying `01.01.2024` against a remote
whose body says `02.01.2024` yields a `DailyRecord` keyed `02.01.2024` —
the merge/display key is taken from the response, not from the query
parameter, so the two need not coincide. -/
theorem rate_key_from_response_counterexample :
    get_exchange_rate echoFreeRemote DEFAULT_CURRENCIES "01.01.2024" =
      some ("02.01.2024", []) ∧ ("02.01.2024" : String) ≠ "01.01.2024" :=
  ⟨rfl, by decide⟩

theorem format_date_key (currencies : List String) (body : ExchangeJson)
    (rec : DailyRecord) (h : format_exchange_result currencies body = some rec) :
    body.date = some rec.1 := by
  cases her : body.exchangeRate with
  | none => simp [format_exchange_result, her] at h
  | some er =>
    cases hd : body.date with
    | none => simp [format_exchange_result, her, hd] at h
    | some d =>
      cases hbr : buildRates currencies er with
      | none => simp [format_exchange_result, her, hd, hbr] at h
      | some rates =>
        simp only [format_exchange_result, her, hd, hbr, Option.some_inj] at h
        rw [← h]

/-- C9 (amended):  For every queried date, `get_exchange_rate` issues an
HTTP GET to path `/p24api/exchange_rates` on the fixed base URL with query
parameter `date` set to the formatted `DateKey` (and consults the remote at
no other request), and the `DailyRecord` it returns on success is keyed by
the *response's* top-level `date` field — which coincides with the query
`DateKey` only when the server echoes it back. -/
theorem rate_request_shape (remote : Request → HttpOutcome)
    (currencies : List String) (from_date : String) :
    (mkRequest from_date).path = "/p24api/exchange_rates" ∧
    (mkRequest from_date).params = [("date", from_date)] ∧
    (mkRequest from_date).base_url = "http://api.privatbank.ua" ∧
    (∀ remote', remote (mkRequest from_date) = remote' (mkRequest from_date) →
      get_exchange_rate remote currencies from_date =
        get_exchange_rate remote' currencies from_date) ∧
    (∀ body rec, remote (mkRequest from_date) = HttpOutcome.ok body →
      get_exchange_rate remote currencies from_date = some rec →
      body.date = some rec.1) := by
  refine ⟨rfl, rfl, rfl, ?_, ?_⟩
  · intro remote' heq
    unfold get_exchange_rate
    rw [heq]
  · intro body rec hbody hrec
    unfold get_exchange_rate at hrec
    rw [hbody] at hrec
    exact format_date_key currencies body rec hrec

/-- Witness for C9 (amended), using the non-echoing remote. -/
theorem rate_request_shape_witness :
    (mkRequest "01.01.2024").path = "/p24api/exchange_rates" ∧
    (mkRequest "01.01.2024").params = [("date", "01.01.2024")] ∧
    (mkRequest "01.01.2024").base_url = "http://api.privatbank.ua" ∧
    (get_exchange_rate echoFreeRemote DEFAULT_CURRENCIES "01.01.2024" =
      get_exchange_rate echoFreeRemote DEFAULT_CURRENCIES "01.01.2024") ∧
    (({ date := some "02.01.2024", exchangeRate := some [] } : ExchangeJson).date =
      some (("02.01.2024", ([] : List (String × Rate × Rate))) : DailyRecord).1) :=
  ⟨(rate_request_shape echoFreeRemote DEFAULT_CURRENCIES "01.01.2024").1,
   (rate_request_shape echoFreeRemote DEFAULT_CURRENCIES "01.01.2024").2.1,
   (rate_request_shape echoFreeRemote DEFAULT_CURRENCIES "01.01.2024").2.2.1,
   (rate_request_shape echoFreeRemote DEFAULT_CURRENCIES "01.01.2024").2.2.2.1
     echoFreeRemote rfl,
   (rate_request_shape echoFreeRemote DEFAULT_CURRENCIES "01.01.2024").2.2.2.2
     _ _ rfl rfl⟩

end PyEduWebHT05
